import Mathlib

/-!
# Verification of the AionUi automation-skill scripts

A shallow embedding, in Lean 4, of the logic of the spreadsheet and
dashboard-monitoring scripts of this repository:

* `src/skills/chrome/scripts/monitor_dashboard.js`
  (`detectAnomalies`, `extractDashboardData`, `monitorDashboard`);
* `src/skills/xlsx/excel_advanced.js`
  (`analyzeData`, `addAutofilter`, `getColumnLetter`, `compareFiles`);
* `src/skills/xlsx/scripts/csv_to_excel.js` (`csvToExcel`) and the
  companion `excel_to_csv.js` (`excelToCSV`).

JavaScript numbers are modelled as exact rationals `ℚ` where the scripts
only add, divide, and compare them; where the CSV converters parse and
print numerals, the IEEE-754 binary64 rounding of `parseFloat` and the
exact-decimal printing of safe integers are modelled explicitly
(`roundToDouble`, `jsNumPrint`). Timestamps are natural-number clock readings
(an ISO-8601 string read from a clock that never runs backwards compares
lexicographically exactly as its clock value compares numerically);
DOM snapshots as pure data supplied per check by an environment.
Fallible steps are driven by an explicit per-iteration environment that
says whether the iteration throws.
-/

/-- A spreadsheet cell value as the scripts see it: `null`/`undefined`
(an unset cell), a JavaScript number (modelled exactly as a rational),
or a string. -/
inductive CellValue where
  | vnull : CellValue
  | vnum : ℚ → CellValue
  | vstr : String → CellValue
deriving DecidableEq, Repr

/-- `typeof v` for a non-null cell value (`typeof 5 = "number"`,
`typeof "x" = "string"`); the scripts only consult it on values already
filtered to be non-null. -/
def typeofCV : CellValue → String
  | .vnull => "object"
  | .vnum _ => "number"
  | .vstr _ => "string"

/-- JavaScript falsiness of a cell value, as used by `headers[col] || default`:
`null`, `0` and `""` are falsy. -/
def falsyCV : CellValue → Bool
  | .vnull => true
  | .vnum q => q = 0
  | .vstr s => s = ""

/-- The decimal digits of `n`, most significant first (empty for `0`);
the recursion mirrors repeated division by 10, with `fuel ≥ n` supplied
so the recursion is structural (and hence computes by reduction). -/
def natDigitsAux : Nat → Nat → List Char
  | _, 0 => []
  | 0, _ + 1 => []
  | fuel + 1, n + 1 =>
    natDigitsAux fuel ((n + 1) / 10) ++ [Char.ofNat (48 + (n + 1) % 10)]

/-- The decimal digits of `n`, most significant first (empty for `0`). -/
def natDigits (n : Nat) : List Char := natDigitsAux n n

/-- `String(n)` for a natural number: JavaScript's canonical decimal
rendering of a non-negative integral number value. -/
def natPrint (n : Nat) : String :=
  if n = 0 then "0" else ⟨natDigits n⟩

/-- Parse a string of decimal digits as a natural number
(the value JavaScript's number coercion gives an all-digit string). -/
def natParse (s : String) : Nat :=
  s.data.foldl (fun acc c => acc * 10 + (c.toNat - 48)) 0

/-- `getColumnLetter` of `excel_advanced.js`: bijective base-26 column
naming. The source loops `while (colNumber > 0)` taking
`modulo = (colNumber - 1) % 26`, prepending the letter of code
`65 + modulo`, and continuing with `(colNumber - modulo) / 26`; on input
`n + 1` that remainder is `n % 26` and the next iterate is `n / 26`. -/
def getColumnLetterAux : Nat → Nat → List Char
  | _, 0 => []
  | 0, _ + 1 => []
  | fuel + 1, n + 1 =>
    getColumnLetterAux fuel (n / 26) ++ [Char.ofNat (65 + n % 26)]

/-- `getColumnLetter` proper; the fuel `n` always suffices since the
iterate shrinks at every step. -/
def getColumnLetter (n : Nat) : String := ⟨getColumnLetterAux n n⟩

/-- A worksheet: a name and a grid of rows of cell values. -/
structure Sheet where
  name : String
  grid : List (List CellValue)
deriving DecidableEq, Repr

/-- ExcelJS `sheet.rowCount`: the number of the last populated row. -/
def Sheet.rowCount (s : Sheet) : Nat := s.grid.length

/-- ExcelJS `sheet.columnCount`: the largest populated column index
over all rows. -/
def Sheet.columnCount (s : Sheet) : Nat :=
  (s.grid.map List.length).foldr max 0

/-- ExcelJS `sheet.getCell(row, col).value` with 1-based `row`, `col`:
`null` outside the populated grid. -/
def Sheet.getCell (s : Sheet) (row col : Nat) : CellValue :=
  (((s.grid.get? (row - 1)).getD []).get? (col - 1)).getD .vnull

/-- A workbook: its worksheets in order. Sheet names in a workbook read
from an `.xlsx` file are distinct (the format requires it, and ExcelJS
rejects duplicate names on creation); theorems that need this take it as
a `Nodup` hypothesis. -/
structure Workbook where
  sheets : List Sheet
deriving DecidableEq, Repr

/-- ExcelJS `workbook.getWorksheet(name)`: the first sheet with the
given name. -/
def Workbook.getWorksheet (wb : Workbook) (name : String) : Option Sheet :=
  wb.sheets.find? (fun sh => sh.name == name)

example : getColumnLetter 26 = "Z" := by decide
example : getColumnLetter 27 = "AA" := by decide
example : getColumnLetter 3 = "C" := by decide
example : natPrint 105 = "105" := by decide
example : natParse "105" = 105 := by decide

/-! ## The dashboard monitor (`monitor_dashboard.js`) -/

/-- The ASCII whitespace the scripts encounter. -/
def jsWhitespace (c : Char) : Bool :=
  c = ' ' ∨ c = '\t' ∨ c = '\n' ∨ c = '\r'

/-- JavaScript `String.prototype.trim()` on the ASCII whitespace the
scripts encounter. -/
def jsTrim (s : String) : String :=
  ⟨((s.data.dropWhile jsWhitespace).reverse.dropWhile jsWhitespace).reverse⟩

/-- A bounding box as returned by the browser driver. -/
structure BBox where
  width : ℚ
  height : ℚ
deriving DecidableEq, Repr

/-- A DOM element in a page snapshot: its text content, the two
attributes the scripts read, its `tr` rows (each a list of `td`/`th`
text contents) when it is a table, and its bounding box. -/
structure Elem where
  textContent : Option String := none
  ariaLabel : Option String := none
  titleAttr : Option String := none
  trRows : List (List (Option String)) := []
  boundingBox : Option BBox := none
deriving DecidableEq, Repr

/-- A page snapshot: the DOM queried by `page.«$$»(selector)` as pure
data, plus the page title and URL. The query results are fixed data, so
the `try`/`catch` fallbacks inside `detectAnomalies` and
`extractDashboardData` (which only fire when a driver call itself
throws) are dead in this embedding; iteration-level throws are modelled
by the check environment instead. -/
structure Page where
  title : String := ""
  url : String := ""
  query : String → List Elem

/-- An anomaly record pushed by `detectAnomalies`; `Option` fields model
JS object fields that are absent on some record shapes. -/
structure Anomaly where
  type : String
  selector : Option String := none
  message : Option String := none
  count : Option Nat := none
  index : Option Nat := none
deriving DecidableEq, Repr

/-- The fixed error-message selector checklist. -/
def errorSelectors : List String :=
  [".error-message", ".data-error", "[data-error]", ".alert-danger", ".warning"]

/-- The fixed stuck-loading selector checklist. -/
def loadingSelectors : List String :=
  [".loading", ".spinner", "[data-loading=\"true\"]"]

/-- The fixed chart selector checklist. -/
def chartSelectors : List String :=
  ["svg[class*=\"chart\"]", "canvas[class*=\"chart\"]", ".chart-container"]

/-- `detectAnomalies` of `monitor_dashboard.js`: one `error` anomaly per
element matching an error selector; one `loading_stuck` anomaly per
loading selector with at least one match; one `empty_table` anomaly per
table with at most one `tr`; one `chart_too_small` anomaly per chart
element whose bounding box exists and is under 10 wide or 10 tall. -/
def detectAnomalies (page : Page) : List Anomaly :=
  (errorSelectors.map (fun sel =>
      (page.query sel).map (fun e =>
        { type := "error", selector := some sel,
          message := e.textContent.map jsTrim }))).flatten
  ++ loadingSelectors.filterMap (fun sel =>
      if (page.query sel).length > 0 then
        some { type := "loading_stuck", selector := some sel,
               count := some (page.query sel).length,
               message := some "Elements still in loading state" }
      else none)
  ++ (page.query "table").enum.filterMap (fun p =>
      if p.2.trRows.length ≤ 1 then
        some { type := "empty_table", index := some p.1,
               message := some "Table appears to be empty" }
      else none)
  ++ (chartSelectors.map (fun sel =>
      (page.query sel).enum.filterMap (fun p =>
        match p.2.boundingBox with
        | some bb =>
          if bb.width < 10 ∨ bb.height < 10 then
            some { type := "chart_too_small", selector := some sel,
                   index := some p.1,
                   message := some "Chart appears too small or hidden" }
          else none
        | none => none))).flatten

/-- The fixed metric/KPI selector checklist. -/
def metricSelectors : List String :=
  [".metric-value", ".kpi-value", "[data-metric]", ".scorecard-value"]

/-- The first truthy string among a list of nullable strings (the JS
`a || b || ...` chain over attribute reads, where `null` and `""` are
falsy). -/
def firstTruthy : List (Option String) → Option String
  | [] => none
  | none :: rest => firstTruthy rest
  | some s :: rest => if s = "" then firstTruthy rest else some s

/-- One extracted metric/KPI entry. -/
structure Metric where
  value : Option String
  label : String
deriving DecidableEq, Repr

/-- One extracted table entry. -/
structure TableInfo where
  index : Nat
  rows : Nat
  data : List (List String)
deriving DecidableEq, Repr

/-- The single chart-count entry pushed by `extractDashboardData`. -/
structure ChartCount where
  count : Nat
  message : String
deriving DecidableEq, Repr

/-- The `data` object built by `extractDashboardData`. -/
structure DashData where
  timestamp : Nat
  title : String
  url : String
  metrics : List Metric
  tables : List TableInfo
  charts : List ChartCount
deriving DecidableEq, Repr

/-- `extractDashboardData` of `monitor_dashboard.js`, with `now` the
clock reading of its `new Date().toISOString()`. -/
def extractDashboardData (page : Page) (now : Nat) : DashData :=
  { timestamp := now
    title := page.title
    url := page.url
    metrics := (metricSelectors.map (fun sel =>
      (page.query sel).map (fun e =>
        { value := e.textContent.map jsTrim,
          label := (firstTruthy [e.ariaLabel, e.titleAttr]).getD "Unlabeled" }))).flatten
    tables := (page.query "table").enum.map (fun p =>
      { index := p.1, rows := p.2.trRows.length,
        data := p.2.trRows.map (fun row =>
          row.map (fun c => (c.map jsTrim).getD "")) })
    charts := [{ count := (page.query "svg, canvas").length,
                 message := "Found " ++ natPrint (page.query "svg, canvas").length
                   ++ " chart elements" }] }

/-- What the environment does to one check iteration: either some driver
call in the `try` block (navigation, wait) throws with a message, or the
iteration completes against a page snapshot. -/
inductive CheckOutcome where
  | throwsErr : String → CheckOutcome
  | completes : Page → CheckOutcome

/-- The environment of one check iteration: its outcome and the
(non-negative) time that elapses up to each of the iteration's two
clock readings. Modelling elapsed time as a natural number encodes that
the wall clock never runs backwards during a run. -/
structure CheckEnv where
  outcome : CheckOutcome
  navDelay : Nat := 0
  extractDelay : Nat := 0

/-- One monitoring result record. `Option` fields model JS object field
presence: the success shape sets `anomalyCount`, `anomalies` and `data`
and no `error`; the `catch` shape sets only `error` besides `check`,
`timestamp` and `status`. -/
structure MonitorResult where
  check : Nat
  timestamp : Nat
  status : String
  anomalyCount : Option Nat
  anomalies : Option (List Anomaly)
  data : Option DashData
  error : Option String
deriving DecidableEq, Repr

/-- One iteration of the monitoring loop body (`i` is the 0-based loop
index, `clock` the current time): the `try` block on success builds the
success record from `detectAnomalies` and `extractDashboardData`, the
`catch` builds the error record. Returns the record pushed and the
clock after the iteration's last timestamp read. -/
def runCheck (env : CheckEnv) (i clock : Nat) : MonitorResult × Nat :=
  match env.outcome with
  | .throwsErr msg =>
    let t := clock + env.navDelay
    ({ check := i + 1, timestamp := t, status := "error",
       anomalyCount := none, anomalies := none, data := none,
       error := some msg }, t)
  | .completes page =>
    let t1 := clock + env.navDelay
    let anoms := detectAnomalies page
    let d := extractDashboardData page t1
    let t2 := t1 + env.extractDelay
    ({ check := i + 1, timestamp := t2,
       status := if anoms.length = 0 then "healthy" else "issues_detected",
       anomalyCount := some anoms.length, anomalies := some anoms,
       data := some d, error := none }, t2)

/-- The monitoring loop with its accumulator made explicit, modelling
`results.push(...)`: `n` iterations remain, `i` is the loop index,
`acc` the results pushed so far. -/
def monitorGo (envs : Nat → CheckEnv) :
    Nat → Nat → Nat → List MonitorResult → List MonitorResult
  | 0, _, _, acc => acc
  | n + 1, i, clock, acc =>
    let rc := runCheck (envs i) i clock
    monitorGo envs n (i + 1) rc.2 (acc ++ [rc.1])

/-- `monitorDashboard` of `monitor_dashboard.js`, restricted to its
observable output: the results array serialized at the end of the run.
`checkCount` is `config.checkCount`; `envs` gives each iteration's
environment. -/
def monitorDashboard (checkCount : Nat) (envs : Nat → CheckEnv) :
    List MonitorResult :=
  monitorGo envs checkCount 0 0 []

/-- The cons-form of the loop, convenient for induction. -/
def monitorList (envs : Nat → CheckEnv) : Nat → Nat → Nat → List MonitorResult
  | 0, _, _ => []
  | n + 1, i, clock =>
    let rc := runCheck (envs i) i clock
    rc.1 :: monitorList envs n (i + 1) rc.2

/-- The clock after `k` iterations starting at loop index `i`. -/
def monitorClockAt (envs : Nat → CheckEnv) (i clock : Nat) : Nat → Nat
  | 0 => clock
  | k + 1 =>
    (runCheck (envs (i + k)) (i + k) (monitorClockAt envs i clock k)).2

/-- Each loop iteration appends its record to the accumulator and never
touches what was accumulated before. -/
lemma monitorGo_append (envs : Nat → CheckEnv) (n i clock : Nat)
    (acc : List MonitorResult) :
    monitorGo envs n i clock acc = acc ++ monitorList envs n i clock := by
  induction n generalizing i clock acc with
  | zero => simp [monitorGo, monitorList]
  | succ n ih => simp [monitorGo, monitorList, ih]

lemma monitorDashboard_eq (K : Nat) (envs : Nat → CheckEnv) :
    monitorDashboard K envs = monitorList envs K 0 0 := by
  simp [monitorDashboard, monitorGo_append]

lemma monitorList_length (envs : Nat → CheckEnv) (n i clock : Nat) :
    (monitorList envs n i clock).length = n := by
  induction n generalizing i clock with
  | zero => rfl
  | succ n ih => simp [monitorList, ih]

lemma runCheck_timestamp (env : CheckEnv) (i clock : Nat) :
    (runCheck env i clock).1.timestamp = (runCheck env i clock).2 := by
  obtain ⟨o, nd, ed⟩ := env
  cases o <;> simp [runCheck]

lemma runCheck_clock_le (env : CheckEnv) (i clock : Nat) :
    clock ≤ (runCheck env i clock).2 := by
  obtain ⟨o, nd, ed⟩ := env
  cases o <;> (simp [runCheck]; try omega)

lemma runCheck_check (env : CheckEnv) (i clock : Nat) :
    (runCheck env i clock).1.check = i + 1 := by
  obtain ⟨o, nd, ed⟩ := env
  cases o <;> simp [runCheck]

lemma runCheck_status (env : CheckEnv) (i clock : Nat) :
    (runCheck env i clock).1.status = "healthy" ∨
    (runCheck env i clock).1.status = "issues_detected" ∨
    (runCheck env i clock).1.status = "error" := by
  obtain ⟨o, nd, ed⟩ := env
  cases o with
  | throwsErr msg => simp [runCheck]
  | completes page =>
    by_cases h : detectAnomalies page = [] <;> simp [runCheck, h]

/-- The timestamps of a loop run form a chain above the starting clock. -/
lemma monitorList_chain (envs : Nat → CheckEnv) (n i clock : Nat) :
    List.Chain (fun a b => a ≤ b) clock
      ((monitorList envs n i clock).map MonitorResult.timestamp) := by
  induction n generalizing i clock with
  | zero => simp [monitorList]
  | succ n ih =>
    simp only [monitorList, List.map_cons]
    exact List.Chain.cons
      (by rw [runCheck_timestamp]; exact runCheck_clock_le _ _ _)
      (by rw [runCheck_timestamp]; exact ih _ _)

lemma monitorList_statuses (envs : Nat → CheckEnv) (n i clock : Nat) :
    ∀ r ∈ monitorList envs n i clock,
      r.status = "healthy" ∨ r.status = "issues_detected" ∨
        r.status = "error" := by
  induction n generalizing i clock with
  | zero => simp [monitorList]
  | succ n ih =>
    intro r hr
    simp only [monitorList, List.mem_cons] at hr
    rcases hr with h | h
    · subst h; exact runCheck_status _ _ _
    · exact ih _ _ r h

lemma monitorClockAt_shift (envs : Nat → CheckEnv) (i clock k : Nat) :
    monitorClockAt envs (i + 1) (runCheck (envs i) i clock).2 k
      = monitorClockAt envs i clock (k + 1) := by
  induction k with
  | zero => simp [monitorClockAt]
  | succ k ih =>
    show (runCheck (envs (i + 1 + k)) (i + 1 + k) _).2 = _
    rw [ih]
    have h : i + 1 + k = i + (k + 1) := by omega
    rw [h]
    rfl

/-- The `k`-th record of a run is the record of the `k`-th iteration,
run at the accumulated clock. -/
lemma monitorList_get (envs : Nat → CheckEnv) (n i clock k : Nat)
    (h : k < n) :
    (monitorList envs n i clock).get? k
      = some (runCheck (envs (i + k)) (i + k)
          (monitorClockAt envs i clock k)).1 := by
  induction k generalizing n i clock with
  | zero =>
    cases n with
    | zero => omega
    | succ m => simp [monitorList, monitorClockAt]
  | succ k ih =>
    cases n with
    | zero => omega
    | succ m =>
      show (monitorList envs m (i + 1) _).get? k = _
      rw [ih _ _ _ (by omega), monitorClockAt_shift]
      have h1 : i + 1 + k = i + (k + 1) := by omega
      rw [h1]

/-- A page on which every query is empty: a fully healthy dashboard. -/
def pageEmpty : Page := { query := fun _ => [] }

/-- An environment whose every check completes against the healthy page. -/
def envsHealthy : Nat → CheckEnv := fun _ =>
  { outcome := .completes pageEmpty, navDelay := 1, extractDelay := 1 }

/-- An environment whose every check throws (e.g. a navigation timeout). -/
def envsFailing : Nat → CheckEnv := fun _ =>
  { outcome := .throwsErr "Navigation timeout exceeded", navDelay := 1 }

/-- C1: for every `K ≥ 1`, running the monitor with `checks = K`
produces exactly `K` result entries, their timestamps are nondecreasing
in array order, and every status is one of the three enum values. -/
theorem monitor_run_count_timestamps_statuses (K : Nat)
    (envs : Nat → CheckEnv) (_hK : 1 ≤ K) :
    (monitorDashboard K envs).length = K ∧
    List.Chain' (fun a b => a ≤ b)
      ((monitorDashboard K envs).map MonitorResult.timestamp) ∧
    ∀ r ∈ monitorDashboard K envs,
      r.status = "healthy" ∨ r.status = "issues_detected" ∨
        r.status = "error" := by
  rw [monitorDashboard_eq]
  refine ⟨monitorList_length envs K 0 0, ?_, monitorList_statuses envs K 0 0⟩
  exact List.Chain'.tail
    (show List.Chain' _ ((0 : Nat) :: _) from monitorList_chain envs K 0 0)

theorem monitor_run_count_timestamps_statuses_witness :
    1 ≤ 2 ∧
    ((monitorDashboard 2 envsHealthy).length = 2 ∧
    List.Chain' (fun a b => a ≤ b)
      ((monitorDashboard 2 envsHealthy).map MonitorResult.timestamp) ∧
    ∀ r ∈ monitorDashboard 2 envsHealthy,
      r.status = "healthy" ∨ r.status = "issues_detected" ∨
        r.status = "error") :=
  ⟨by decide, monitor_run_count_timestamps_statuses 2 envsHealthy (by decide)⟩

/-- A completed iteration's record, componentwise. -/
lemma runCheck_completes_props (env : CheckEnv) (page : Page)
    (i clock : Nat) (h : env.outcome = .completes page) :
    ((runCheck env i clock).1.status = "healthy" ↔
        detectAnomalies page = []) ∧
    (detectAnomalies page ≠ [] →
        (runCheck env i clock).1.status = "issues_detected") ∧
    (runCheck env i clock).1.anomalies = some (detectAnomalies page) ∧
    (runCheck env i clock).1.anomalyCount
      = some (detectAnomalies page).length := by
  obtain ⟨o, nd, ed⟩ := env
  have h2 : o = CheckOutcome.completes page := h
  subst h2
  by_cases hd : detectAnomalies page = [] <;> simp [runCheck, hd]

/-- A thrown iteration's record, componentwise. -/
lemma runCheck_throws_props (env : CheckEnv) (msg : String)
    (i clock : Nat) (h : env.outcome = .throwsErr msg) :
    (runCheck env i clock).1.status = "error" ∧
    (runCheck env i clock).1.error = some msg := by
  obtain ⟨o, nd, ed⟩ := env
  have h2 : o = CheckOutcome.throwsErr msg := h
  subst h2
  simp [runCheck]

/-- C3: a check iteration that completes without throwing is reported
`healthy` exactly when `detectAnomalies` returned no anomaly (otherwise
`issues_detected`), its `anomalies` field is that list, and its
`anomalyCount` is that list's length. -/
theorem monitor_status_iff_no_anomalies (K : Nat) (envs : Nat → CheckEnv)
    (k : Nat) (page : Page) (hk : k < K)
    (hout : (envs k).outcome = .completes page) :
    ∃ r, (monitorDashboard K envs).get? k = some r ∧
      (r.status = "healthy" ↔ detectAnomalies page = []) ∧
      (detectAnomalies page ≠ [] → r.status = "issues_detected") ∧
      r.anomalies = some (detectAnomalies page) ∧
      r.anomalyCount = some (detectAnomalies page).length := by
  rw [monitorDashboard_eq, monitorList_get envs K 0 0 k hk]
  refine ⟨_, rfl, ?_⟩
  have h0 : (0 : Nat) + k = k := by omega
  rw [h0]
  exact runCheck_completes_props (envs k) page _ _ hout

theorem monitor_status_iff_no_anomalies_witness :
    0 < 1 ∧ (envsHealthy 0).outcome = .completes pageEmpty ∧
    (∃ r, (monitorDashboard 1 envsHealthy).get? 0 = some r ∧
      (r.status = "healthy" ↔ detectAnomalies pageEmpty = []) ∧
      (detectAnomalies pageEmpty ≠ [] → r.status = "issues_detected") ∧
      r.anomalies = some (detectAnomalies pageEmpty) ∧
      r.anomalyCount = some (detectAnomalies pageEmpty).length) :=
  ⟨by decide, rfl,
    monitor_status_iff_no_anomalies 1 envsHealthy 0 pageEmpty (by decide) rfl⟩

/-- C4 counterexample: a run whose single check throws appends an entry
that carries none of the `anomalyCount`, `anomalies`, `data` fields (it
carries only `check`, `timestamp`, `status: "error"` and `error`), so
not every entry has the full record shape. -/
theorem monitor_error_entry_lacks_fields :
    ((monitorDashboard 1 envsFailing).all fun r =>
      r.anomalyCount.isSome && r.anomalies.isSome && r.data.isSome) = false
    ∧ (monitorDashboard 1 envsFailing).map
        (fun r => (r.check, r.status, r.anomalyCount, r.anomalies, r.data,
          r.error))
      = [(1, "error", none, none, none,
          some "Navigation timeout exceeded")] := by
  exact ⟨by decide, by rfl⟩

lemma monitorList_shapes (envs : Nat → CheckEnv) (n i clock : Nat) :
    ∀ r ∈ monitorList envs n i clock,
      1 ≤ r.check ∧
      (r.error = none →
        ∃ anoms d, r.anomalies = some anoms ∧
          r.anomalyCount = some anoms.length ∧ r.data = some d ∧
          (r.status = "healthy" ∨ r.status = "issues_detected")) ∧
      (∀ msg, r.error = some msg →
        r.status = "error" ∧ r.anomalyCount = none ∧
        r.anomalies = none ∧ r.data = none) := by
  induction n generalizing i clock with
  | zero => simp [monitorList]
  | succ n ih =>
    intro r hr
    simp only [monitorList, List.mem_cons] at hr
    rcases hr with h | h
    · subst h
      obtain ⟨o, nd, ed⟩ := envs i
      cases o with
      | throwsErr msg => simp [runCheck]
      | completes page =>
        by_cases h : detectAnomalies page = [] <;> simp [runCheck, h]
    · exact ih _ _ r h

/-- C4 amended: every entry has `check ≥ 1` and a `timestamp`; an entry
of a check that completed carries `status` (`healthy` or
`issues_detected`), `anomalyCount` equal to the length of its
`anomalies` list, and `data`; an entry produced by the `catch` carries
`status: "error"` and the error message but no `anomalyCount`,
`anomalies` or `data` field. -/
theorem monitor_entry_shapes (K : Nat) (envs : Nat → CheckEnv) :
    ∀ r ∈ monitorDashboard K envs,
      1 ≤ r.check ∧
      (r.error = none →
        ∃ anoms d, r.anomalies = some anoms ∧
          r.anomalyCount = some anoms.length ∧ r.data = some d ∧
          (r.status = "healthy" ∨ r.status = "issues_detected")) ∧
      (∀ msg, r.error = some msg →
        r.status = "error" ∧ r.anomalyCount = none ∧
        r.anomalies = none ∧ r.data = none) := by
  rw [monitorDashboard_eq]
  exact monitorList_shapes envs K 0 0

theorem monitor_entry_shapes_witness :
    ∃ r, r ∈ monitorDashboard 1 envsHealthy ∧
      (1 ≤ r.check ∧
      (r.error = none →
        ∃ anoms d, r.anomalies = some anoms ∧
          r.anomalyCount = some anoms.length ∧ r.data = some d ∧
          (r.status = "healthy" ∨ r.status = "issues_detected")) ∧
      (∀ msg, r.error = some msg →
        r.status = "error" ∧ r.anomalyCount = none ∧
        r.anomalies = none ∧ r.data = none)) :=
  ⟨(runCheck (envsHealthy 0) 0 0).1, by decide,
    monitor_entry_shapes 1 envsHealthy (runCheck (envsHealthy 0) 0 0).1
      (by decide)⟩

/-- C5: when the `k`-th check of a run of `K` checks throws, the error
is caught: the run still produces all `K` entries, the `k`-th entry
records `status: "error"` with check number `k + 1` and the thrown
message, and (third conjunct) every iteration only ever appends to the
accumulated results, so earlier entries are neither modified nor
lost. -/
theorem monitor_error_caught_loop_continues (K : Nat)
    (envs : Nat → CheckEnv) (k : Nat) (msg : String) (hk : k < K)
    (hout : (envs k).outcome = .throwsErr msg) :
    (monitorDashboard K envs).length = K ∧
    (∃ r, (monitorDashboard K envs).get? k = some r ∧
      r.check = k + 1 ∧ r.status = "error" ∧ r.error = some msg) ∧
    (∀ (acc : List MonitorResult) (n i clock : Nat),
      monitorGo envs n i clock acc = acc ++ monitorList envs n i clock) := by
  refine ⟨?_, ?_, fun acc n i clock => monitorGo_append envs n i clock acc⟩
  · rw [monitorDashboard_eq]; exact monitorList_length envs K 0 0
  · rw [monitorDashboard_eq, monitorList_get envs K 0 0 k hk]
    refine ⟨_, rfl, ?_⟩
    have h0 : (0 : Nat) + k = k := by omega
    rw [h0]
    exact ⟨runCheck_check _ _ _, runCheck_throws_props (envs k) msg _ _ hout⟩

theorem monitor_error_caught_loop_continues_witness :
    1 < 2 ∧ (envsFailing 1).outcome = .throwsErr "Navigation timeout exceeded" ∧
    ((monitorDashboard 2 envsFailing).length = 2 ∧
    (∃ r, (monitorDashboard 2 envsFailing).get? 1 = some r ∧
      r.check = 1 + 1 ∧ r.status = "error" ∧
      r.error = some "Navigation timeout exceeded") ∧
    (∀ (acc : List MonitorResult) (n i clock : Nat),
      monitorGo envsFailing n i clock acc
        = acc ++ monitorList envsFailing n i clock)) :=
  ⟨by decide, rfl,
    monitor_error_caught_loop_continues 2 envsFailing 1
      "Navigation timeout exceeded" (by decide) rfl⟩

/-! ## The spreadsheet tool (`excel_advanced.js`) -/

/-- The column label used by the `analyze` action: the single character
of code `64 + col` (`String.fromCharCode(64 + col)`). -/
def analyzeColLabel (col : Nat) : String := ⟨[Char.ofNat (64 + col)]⟩

/-- The non-empty values of column `col`, rows `2 .. rowCount`, in row
order: the `columnData` array built by `analyzeData`. -/
def columnValues (sheet : Sheet) (col : Nat) : List CellValue :=
  (List.range' 2 (sheet.rowCount - 1)).filterMap (fun row =>
    let v := sheet.getCell row col
    if v = .vnull then none else some v)

/-- The values of `columnData` that are numbers
(`columnData.filter((v) => typeof v === 'number')`). -/
def numericValues (l : List CellValue) : List ℚ :=
  l.filterMap (fun v => match v with | .vnum q => some q | _ => none)

/-- `Math.min(...numbers)` for a non-empty spread (`none` models the
`Infinity` of an empty spread, which the source guards against). -/
def listMin : List ℚ → Option ℚ
  | [] => none
  | x :: xs => some (xs.foldl min x)

/-- `Math.max(...numbers)` for a non-empty spread. -/
def listMax : List ℚ → Option ℚ
  | [] => none
  | x :: xs => some (xs.foldl max x)

/-- `numbers.reduce((a, b) => a + b, 0)`. -/
def listSum (l : List ℚ) : ℚ := l.foldl (· + ·) 0

/-- The header of column `col`: the row-1 cell if truthy, else
`Column ${col}` (`headers[colNumber] || ...`; `headerRow.eachCell`
skips null cells, and null, `0` and `""` are all falsy). -/
def headerAt (sheet : Sheet) (col : Nat) : CellValue :=
  let h := sheet.getCell 1 col
  if falsyCV h then .vstr ("Column " ++ natPrint col) else h

/-- One column-statistics record of the `analyze` action. -/
structure ColStats where
  column : String
  header : CellValue
  count : Nat
  type : String
  unique : Nat
  min : Option ℚ := none
  max : Option ℚ := none
  avg : Option ℚ := none
  sum : Option ℚ := none
deriving DecidableEq, Repr

/-- The per-column body of `analyzeData`: `none` when the column has no
non-empty value (`columnData.length > 0` fails and nothing is pushed);
otherwise the record with `count`, `type` of the first value, `unique`
(the `Set` size, i.e. the number of distinct values), and, when the
first value is a number, `min`/`max`/`avg`/`sum` over the numeric
values. -/
def analyzeColumn (colLabel : String) (header : CellValue) :
    List CellValue → Option ColStats
  | [] => none
  | v0 :: rest =>
    let columnData := v0 :: rest
    let base : ColStats :=
      { column := colLabel, header := header,
        count := columnData.length, type := typeofCV v0,
        unique := columnData.dedup.length }
    if typeofCV v0 = "number" then
      let numbers := numericValues columnData
      if 0 < numbers.length then
        some { base with
          min := listMin numbers, max := listMax numbers,
          avg := some (listSum numbers / (numbers.length : ℚ)),
          sum := some (listSum numbers) }
      else some base
    else some base

/-- The `stats.columns` list built by `analyzeData` over columns
`1 .. columnCount`. -/
def analyzeSheet (sheet : Sheet) : List ColStats :=
  (List.range' 1 sheet.columnCount).filterMap (fun col =>
    analyzeColumn (analyzeColLabel col) (headerAt sheet col)
      (columnValues sheet col))

/-- The parameters of the `autofilter` action that matter to it. -/
structure AutoFilterParams where
  range : Option String
deriving DecidableEq, Repr

/-- The range from cell A1 to the sheet's last populated column and last
populated row: the right-hand side of the `config.params.range || ...`
default in `addAutofilter`, and the range the spec says is always
used. -/
def fullRange (sheet : Sheet) : String :=
  "A1:" ++ getColumnLetter sheet.columnCount ++ natPrint sheet.rowCount

/-- The range string `addAutofilter` assigns to `sheet.autoFilter`:
`config.params.range || "A1:...last"` (an absent or empty `--range` is
falsy and falls back to the default). -/
def addAutofilter (params : AutoFilterParams) (sheet : Sheet) : String :=
  match params.range with
  | some r => if r = "" then fullRange sheet else r
  | none => fullRange sheet

/-- One entry of `cellDifferences` in the `compare` action. -/
structure CellDiff where
  cell : String
  file1 : CellValue
  file2 : CellValue
deriving DecidableEq, Repr

/-- The per-sheet comparison record of the `compare` action. -/
structure SheetDiff where
  name : String
  rowCount1 : Nat
  rowCount2 : Nat
  columnCount1 : Nat
  columnCount2 : Nat
  cellDifferences : List CellDiff
deriving DecidableEq, Repr

/-- The comparison of two same-named sheets: rows `1 .. maxRow` with
`maxRow = min(100, max(rowCounts))` (the 100-row sampling cap), columns
`1 .. max(columnCounts)`; a `CellDiff` is pushed whenever the two cell
values differ. -/
def compareSheets (s1 s2 : Sheet) : SheetDiff :=
  let maxRow := min 100 (max s1.rowCount s2.rowCount)
  let maxCol := max s1.columnCount s2.columnCount
  { name := s1.name,
    rowCount1 := s1.rowCount, rowCount2 := s2.rowCount,
    columnCount1 := s1.columnCount, columnCount2 := s2.columnCount,
    cellDifferences :=
      ((List.range' 1 maxRow).map (fun row =>
        (List.range' 1 maxCol).filterMap (fun col =>
          if s1.getCell row col ≠ s2.getCell row col then
            some { cell := getColumnLetter col ++ natPrint row,
                   file1 := s1.getCell row col,
                   file2 := s2.getCell row col }
          else none))).flatten }

/-- The report of the `compare` action. -/
structure CompareReport where
  sheetCount1 : Nat
  sheetCount2 : Nat
  sheets : List SheetDiff
deriving DecidableEq, Repr

/-- `compareFiles` of `excel_advanced.js`: sheet counts, plus one
`SheetDiff` per sheet of the first workbook that has a same-named sheet
in the second. -/
def compareFiles (wb1 wb2 : Workbook) : CompareReport :=
  { sheetCount1 := wb1.sheets.length
    sheetCount2 := wb2.sheets.length
    sheets := wb1.sheets.filterMap (fun s1 =>
      (wb2.getWorksheet s1.name).map (fun s2 => compareSheets s1 s2)) }

lemma foldl_min_le (xs : List ℚ) (x : ℚ) : xs.foldl min x ≤ x := by
  induction xs generalizing x with
  | nil => simp
  | cons y ys ih => exact le_trans (ih (min x y)) (min_le_left x y)

lemma le_foldl_max (xs : List ℚ) (x : ℚ) : x ≤ xs.foldl max x := by
  induction xs generalizing x with
  | nil => simp
  | cons y ys ih => exact le_trans (le_max_left x y) (ih (max x y))

lemma numericValues_length (l : List CellValue)
    (h : ∀ v ∈ l, typeofCV v = "number") :
    (numericValues l).length = l.length := by
  induction l with
  | nil => rfl
  | cons v vs ih =>
    have hv := h v (List.mem_cons_self v vs)
    cases v with
    | vnull => simp [typeofCV] at hv
    | vstr s => simp [typeofCV] at hv
    | vnum q =>
      have ih2 := ih (fun w hw => h w (List.mem_cons_of_mem _ hw))
      simp only [numericValues] at ih2 ⊢
      simp [List.filterMap_cons, ih2]

/-- When the first value is a number and the numeric values are
`q0 :: qs`, `analyzeColumn` takes its numeric branch. -/
lemma analyzeColumn_num_eq (lbl : String) (hdr : CellValue)
    (v0 : CellValue) (rest : List CellValue) (q0 : ℚ) (qs : List ℚ)
    (hv0 : typeofCV v0 = "number")
    (hq : numericValues (v0 :: rest) = q0 :: qs) :
    analyzeColumn lbl hdr (v0 :: rest) = some
      { column := lbl, header := hdr, count := (v0 :: rest).length,
        type := typeofCV v0, unique := (v0 :: rest).dedup.length,
        min := some (qs.foldl min q0), max := some (qs.foldl max q0),
        avg := some (listSum (q0 :: qs) / ((q0 :: qs).length : ℚ)),
        sum := some (listSum (q0 :: qs)) } := by
  simp [analyzeColumn, hv0, hq, listMin, listMax]

/-- C6: for a column whose non-empty values are all numbers (and there
is at least one), the analyze record satisfies `max - min ≥ 0`,
`sum = avg * count` exactly over the rationals, and
`unique ≤ count`. -/
theorem analyze_numeric_column_stats (sheet : Sheet) (col : Nat)
    (hne : columnValues sheet col ≠ [])
    (hnum : ∀ v ∈ columnValues sheet col, typeofCV v = "number") :
    ∃ st, analyzeColumn (analyzeColLabel col) (headerAt sheet col)
        (columnValues sheet col) = some st ∧
      ∃ mn mx av sm, st.min = some mn ∧ st.max = some mx ∧
        st.avg = some av ∧ st.sum = some sm ∧
        0 ≤ mx - mn ∧ sm = av * (st.count : ℚ) ∧ st.unique ≤ st.count := by
  rcases hd : columnValues sheet col with _ | ⟨v0, rest⟩
  · exact absurd hd hne
  · rw [hd] at hnum
    have hv0 : typeofCV v0 = "number" := hnum v0 (List.mem_cons_self v0 rest)
    have hlen : (numericValues (v0 :: rest)).length = (v0 :: rest).length :=
      numericValues_length _ hnum
    have hpos : 0 < (numericValues (v0 :: rest)).length := by
      rw [hlen]; simp
    rcases hq : numericValues (v0 :: rest) with _ | ⟨q0, qs⟩
    · rw [hq] at hpos; simp at hpos
    · rw [hq] at hlen hpos
      refine ⟨_, analyzeColumn_num_eq (analyzeColLabel col)
        (headerAt sheet col) v0 rest q0 qs hv0 hq, ?_⟩
      refine ⟨qs.foldl min q0, qs.foldl max q0,
        listSum (q0 :: qs) / ((q0 :: qs).length : ℚ), listSum (q0 :: qs),
        rfl, rfl, rfl, rfl, ?_, ?_, ?_⟩
      · have h1 : qs.foldl min q0 ≤ q0 := foldl_min_le qs q0
        have h2 : q0 ≤ qs.foldl max q0 := le_foldl_max qs q0
        linarith
      · show listSum (q0 :: qs)
          = listSum (q0 :: qs) / ((q0 :: qs).length : ℚ)
            * ((v0 :: rest).length : ℚ)
        have hc : ((v0 :: rest).length : ℚ) = ((q0 :: qs).length : ℚ) := by
          exact_mod_cast hlen.symm
        rw [hc, div_mul_cancel₀]
        exact Nat.cast_ne_zero.mpr (by simp)
      · exact List.Sublist.length_le (List.dedup_sublist _)

/-- A concrete sheet: header row, then two numeric rows in column A. -/
def sheetNum : Sheet :=
  { name := "Sheet1",
    grid := [[.vstr "score"], [.vnum 3], [.vnum 5]] }

theorem analyze_numeric_column_stats_witness :
    columnValues sheetNum 1 ≠ [] ∧
    (∀ v ∈ columnValues sheetNum 1, typeofCV v = "number") ∧
    (∃ st, analyzeColumn (analyzeColLabel 1) (headerAt sheetNum 1)
        (columnValues sheetNum 1) = some st ∧
      ∃ mn mx av sm, st.min = some mn ∧ st.max = some mx ∧
        st.avg = some av ∧ st.sum = some sm ∧
        0 ≤ mx - mn ∧ sm = av * (st.count : ℚ) ∧ st.unique ≤ st.count) :=
  ⟨by decide, by decide,
    analyze_numeric_column_stats sheetNum 1 (by decide) (by decide)⟩

/-- A concrete 3-row, 3-column sheet. -/
def sheet3x3 : Sheet :=
  { name := "Data",
    grid := [[.vstr "a", .vstr "b", .vstr "c"],
             [.vnum 1, .vnum 2, .vnum 3],
             [.vnum 4, .vnum 5, .vnum 6]] }

/-- C7 counterexample: with an explicit `--range B2:C3`, `addAutofilter`
assigns exactly that string, which does not span from A1 to the last
populated column and row (`A1:C3` here); so the claim fails for
invocations that pass `--range`. -/
theorem autofilter_explicit_range_kept :
    addAutofilter { range := some "B2:C3" } sheet3x3 = "B2:C3" ∧
    fullRange sheet3x3 = "A1:C3" ∧
    addAutofilter { range := some "B2:C3" } sheet3x3 ≠ fullRange sheet3x3 := by
  refine ⟨by rfl, by rfl, ?_⟩
  decide

/-- C7 amended: when `--range` is absent (or empty, which is falsy in
`config.params.range || ...`), the assigned autofilter range spans from
A1 to the sheet's last populated column and row; an explicit non-empty
`--range` is assigned verbatim. -/
theorem autofilter_range_default_full (sheet : Sheet) :
    addAutofilter { range := none } sheet = fullRange sheet ∧
    addAutofilter { range := some "" } sheet = fullRange sheet ∧
    ∀ r : String, r ≠ "" → addAutofilter { range := some r } sheet = r := by
  refine ⟨rfl, rfl, fun r hr => ?_⟩
  simp [addAutofilter, hr]

theorem autofilter_range_default_full_witness :
    addAutofilter { range := none } sheet3x3 = fullRange sheet3x3 ∧
    addAutofilter { range := some "" } sheet3x3 = fullRange sheet3x3 ∧
    ("D4:E9" ≠ "" ∧
      addAutofilter { range := some "D4:E9" } sheet3x3 = "D4:E9") :=
  ⟨(autofilter_range_default_full sheet3x3).1,
   (autofilter_range_default_full sheet3x3).2.1,
   by decide,
   (autofilter_range_default_full sheet3x3).2.2 "D4:E9" (by decide)⟩

lemma getColumnLetterAux_chars (fuel n : Nat) :
    ∀ c ∈ getColumnLetterAux fuel n, 'A' ≤ c ∧ c ≤ 'Z' := by
  induction fuel generalizing n with
  | zero =>
    cases n with
    | zero => simp [getColumnLetterAux]
    | succ m => simp [getColumnLetterAux]
  | succ fuel ih =>
    cases n with
    | zero => simp [getColumnLetterAux]
    | succ m =>
      intro c hc
      simp only [getColumnLetterAux, List.mem_append, List.mem_singleton] at hc
      rcases hc with h | h
      · exact ih _ c h
      · subst h
        have hr : m % 26 < 26 := Nat.mod_lt _ (by norm_num)
        interval_cases h : (m % 26) <;> constructor <;> decide

lemma getColumnLetter_ne_empty (n : Nat) (h : 1 ≤ n) :
    getColumnLetter n ≠ "" := by
  rcases n with _ | m
  · omega
  · rcases m with _ | k
    · decide
    · intro hc
      have : getColumnLetterAux (k + 2) (k + 2) = [] := congrArg String.data hc
      simp [getColumnLetterAux] at this

/-- Letters of `getColumnLetter` strings are uppercase A–Z. -/
lemma getColumnLetter_chars (n : Nat) :
    ∀ c ∈ (getColumnLetter n).data, 'A' ≤ c ∧ c ≤ 'Z' :=
  getColumnLetterAux_chars n n

/-- For `n > 26` the single character of code `64 + n` is not an
uppercase letter: codes `91 .. ` are past `'Z'`, and codes that are not
valid scalar values collapse to the null character. -/
lemma analyzeColLabel_not_letter (n : Nat) (h : 26 < n) :
    ¬ (∀ c ∈ (analyzeColLabel n).data, 'A' ≤ c ∧ c ≤ 'Z') := by
  intro hall
  have hc := hall (Char.ofNat (64 + n)) (by simp [analyzeColLabel])
  have hZ : ('Z' : Char).toNat = 90 := by decide
  have hA : ('A' : Char).toNat = 65 := by decide
  have h1 : ('A' : Char).toNat ≤ (Char.ofNat (64 + n)).toNat :=
    Char.le_def.mp hc.1
  have h2 : (Char.ofNat (64 + n)).toNat ≤ ('Z' : Char).toNat :=
    Char.le_def.mp hc.2
  by_cases hv : (64 + n).isValidChar
  · have he : (Char.ofNat (64 + n)).toNat = 64 + n := by
      simp [Char.ofNat, Char.toNat, Char.ofNatAux, hv]
      rfl
    rw [he] at h2
    omega
  · have he : (Char.ofNat (64 + n)).toNat = 0 := by
      simp [Char.ofNat, Char.toNat, hv]
      rfl
    rw [he] at h1
    omega

/-- C10: `getColumnLetter` is bijective base-26 column naming — for
`n ≥ 1` it is a non-empty all-uppercase string, with
`getColumnLetter 26 = "Z"` and `getColumnLetter 27 = "AA"` — while the
`analyze` action labels column `n` with the single character of code
`64 + n`; the two agree exactly on `1 ≤ n ≤ 26`, and for `n > 26` the
analyze label is not a valid A–Z column letter. -/
theorem column_letter_bijective_vs_analyze_label :
    (∀ n : Nat, 1 ≤ n → getColumnLetter n ≠ "" ∧
      ∀ c ∈ (getColumnLetter n).data, 'A' ≤ c ∧ c ≤ 'Z') ∧
    getColumnLetter 26 = "Z" ∧ getColumnLetter 27 = "AA" ∧
    (∀ n : Nat, 1 ≤ n → n ≤ 26 → analyzeColLabel n = getColumnLetter n) ∧
    (∀ n : Nat, 26 < n →
      ¬ (∀ c ∈ (analyzeColLabel n).data, 'A' ≤ c ∧ c ≤ 'Z') ∧
      analyzeColLabel n ≠ getColumnLetter n) := by
  refine ⟨fun n hn => ⟨getColumnLetter_ne_empty n hn, getColumnLetter_chars n⟩,
    by decide, by decide, ?_, ?_⟩
  · have hb : ∀ n : Nat, n < 27 → 1 ≤ n →
        analyzeColLabel n = getColumnLetter n := by decide
    exact fun n h1 h26 => hb n (by omega) h1
  · intro n hn
    refine ⟨analyzeColLabel_not_letter n hn, fun he => ?_⟩
    exact analyzeColLabel_not_letter n hn (he ▸ getColumnLetter_chars n)

theorem column_letter_bijective_vs_analyze_label_witness :
    (1 ≤ 28 ∧ getColumnLetter 28 ≠ "" ∧
      ∀ c ∈ (getColumnLetter 28).data, 'A' ≤ c ∧ c ≤ 'Z') ∧
    (1 ≤ 5 ∧ 5 ≤ 26 ∧ analyzeColLabel 5 = getColumnLetter 5) ∧
    (26 < 28 ∧ analyzeColLabel 28 ≠ getColumnLetter 28) :=
  ⟨⟨by decide,
    (column_letter_bijective_vs_analyze_label.1 28 (by decide)).1,
    (column_letter_bijective_vs_analyze_label.1 28 (by decide)).2⟩,
   ⟨by decide, by decide,
    column_letter_bijective_vs_analyze_label.2.2.2.1 5 (by decide) (by decide)⟩,
   ⟨by decide,
    (column_letter_bijective_vs_analyze_label.2.2.2.2 28 (by decide)).2⟩⟩

lemma filterMap_eq_single {α β : Type} (l : List α) (f : α → Option β)
    (x : α) (e : β) (hmem : x ∈ l) (hnd : l.Nodup) (hfx : f x = some e)
    (hother : ∀ y ∈ l, y ≠ x → f y = none) :
    l.filterMap f = [e] := by
  induction l with
  | nil => cases hmem
  | cons a t ih =>
    have hnd' := List.nodup_cons.mp hnd
    rcases List.mem_cons.mp hmem with rfl | hm
    · have ht : t.filterMap f = [] := List.filterMap_eq_nil_iff.mpr
        (fun y hy => hother y (List.mem_cons_of_mem _ hy)
          (fun he => hnd'.1 (he ▸ hy)))
      simp [List.filterMap_cons, hfx, ht]
    · have ha : f a = none := hother a (List.mem_cons_self a t)
        (fun he => hnd'.1 (he ▸ hm))
      rw [List.filterMap_cons, ha]
      exact ih hm hnd'.2
        (fun y hy hyx => hother y (List.mem_cons_of_mem _ hy) hyx)

lemma flatten_all_nil {α : Type} (L : List (List α))
    (h : ∀ l ∈ L, l = []) : L.flatten = [] := by
  induction L with
  | nil => rfl
  | cons a t ih =>
    simp [h a (List.mem_cons_self a t),
      ih (fun l hl => h l (List.mem_cons_of_mem _ hl))]

lemma flatten_map_eq_single {α β : Type} (l : List α) (f : α → List β)
    (x : α) (hmem : x ∈ l) (hnd : l.Nodup)
    (hother : ∀ y ∈ l, y ≠ x → f y = []) :
    (l.map f).flatten = f x := by
  induction l with
  | nil => cases hmem
  | cons a t ih =>
    have hnd' := List.nodup_cons.mp hnd
    rcases List.mem_cons.mp hmem with rfl | hm
    · have ht : ∀ y ∈ t, f y = [] :=
        fun y hy => hother y (List.mem_cons_of_mem _ hy)
          (fun he => hnd'.1 (he ▸ hy))
      have htf : (t.map f).flatten = [] :=
        flatten_all_nil _ (by
          intro m hm
          obtain ⟨y, hy, rfl⟩ := List.mem_map.mp hm
          exact ht y hy)
      simp [htf]
    · have ha : f a = [] := hother a (List.mem_cons_self a t)
        (fun he => hnd'.1 (he ▸ hm))
      simp only [List.map_cons, List.flatten_cons, ha, List.nil_append]
      exact ih hm hnd'.2
        (fun y hy hyx => hother y (List.mem_cons_of_mem _ hy) hyx)

/-- Comparing a sheet with itself reports no cell difference. -/
lemma compareSheets_self (s : Sheet) :
    (compareSheets s s).cellDifferences = [] := by
  simp [compareSheets]

/-- With pairwise-distinct names, looking a member sheet's name up finds
that very sheet. -/
lemma find_name_self (t : List Sheet) (s : Sheet) (hmem : s ∈ t)
    (hnd : (t.map Sheet.name).Nodup) :
    t.find? (fun sh => sh.name == s.name) = some s := by
  induction t with
  | nil => cases hmem
  | cons a t ih =>
    rw [List.map_cons] at hnd
    have hnd' := List.nodup_cons.mp hnd
    rcases List.mem_cons.mp hmem with rfl | hm
    · simp [List.find?]
    · have hne : (a.name == s.name) = false := by
        have h1 : s.name ∈ t.map Sheet.name := List.mem_map_of_mem _ hm
        simp only [beq_eq_false_iff_ne, ne_eq]
        intro he
        exact hnd'.1 (he ▸ h1)
      rw [List.find?]
      rw [hne]
      exact ih hm hnd'.2

/-- Comparing a sheet against a same-shape sheet that differs exactly at
`(r, c)` — with `r` inside the sampled row range and `c` inside the
column range — reports exactly that one cell, by its A1-style
address. -/
lemma compareSheets_single (s1 s2 : Sheet) (r c : Nat)
    (hrc : s2.rowCount = s1.rowCount)
    (hcc : s2.columnCount = s1.columnCount)
    (hr1 : 1 ≤ r) (hr2 : r ≤ min 100 s1.rowCount)
    (hc1 : 1 ≤ c) (hc2 : c ≤ s1.columnCount)
    (hdiff : s1.getCell r c ≠ s2.getCell r c)
    (hsame : ∀ r' c', (r' ≠ r ∨ c' ≠ c) →
      s1.getCell r' c' = s2.getCell r' c') :
    (compareSheets s1 s2).cellDifferences
      = [CellDiff.mk (getColumnLetter c ++ natPrint r)
          (s1.getCell r c) (s2.getCell r c)] := by
  have hmr : min 100 (max s1.rowCount s2.rowCount)
      = min 100 s1.rowCount := by rw [hrc, max_self]
  have hmc : max s1.columnCount s2.columnCount = s1.columnCount := by
    rw [hcc, max_self]
  simp only [compareSheets]
  rw [hmr, hmc]
  rw [flatten_map_eq_single (List.range' 1 (min 100 s1.rowCount)) _ r
    (List.mem_range'_1.mpr ⟨hr1, by omega⟩)
    (List.nodup_range' 1 (min 100 s1.rowCount) 1 (by norm_num))
    (by
      intro row hrow hne
      refine List.filterMap_eq_nil_iff.mpr (fun col hcol => ?_)
      have he := hsame row col (Or.inl hne)
      rw [he]
      simp)]
  refine filterMap_eq_single _ _ c
    (CellDiff.mk (getColumnLetter c ++ natPrint r)
      (s1.getCell r c) (s2.getCell r c))
    (List.mem_range'_1.mpr ⟨hc1, by omega⟩)
    (List.nodup_range' 1 s1.columnCount 1 (by norm_num))
    (by rw [if_pos hdiff])
    (by
      intro col hcol hne
      have he := hsame r col (Or.inr hne)
      rw [he]
      simp)

/-- Replacing the `j`-th sheet by a same-named sheet `s2` and comparing:
all sheets except the `j`-th compare clean against themselves, and the
`j`-th compares as `compareSheets s1 s2`, so the concatenation of all
reported differences is exactly those of the changed pair. -/
lemma compare_set_single (t : List Sheet) (j : Nat) (s1 s2 : Sheet)
    (hnd : (t.map Sheet.name).Nodup)
    (hj : t.get? j = some s1) (hname : s2.name = s1.name) :
    ((t.filterMap (fun s =>
        ((Workbook.mk (t.set j s2)).getWorksheet s.name).map
          (fun sx => compareSheets s sx))).map
        SheetDiff.cellDifferences).flatten
      = (compareSheets s1 s2).cellDifferences := by
  induction t generalizing j with
  | nil => simp at hj
  | cons a t ih =>
    rw [List.map_cons] at hnd
    have hnd' := List.nodup_cons.mp hnd
    cases j with
    | zero =>
      obtain rfl : a = s1 := by simpa using hj
      have hhead : (Workbook.mk ((a :: t).set 0 s2)).getWorksheet a.name
          = some s2 := by
        simp [Workbook.getWorksheet, List.find?, hname]
      have hrest : ∀ s ∈ t,
          (Workbook.mk ((a :: t).set 0 s2)).getWorksheet s.name
            = some s := by
        intro s hs
        have hne : (s2.name == s.name) = false := by
          simp only [beq_eq_false_iff_ne, ne_eq, hname]
          intro he
          exact hnd'.1 (he ▸ List.mem_map_of_mem _ hs)
        simp only [Workbook.getWorksheet, List.set, List.find?]
        rw [hne]
        exact find_name_self t s hs hnd'.2
      rw [List.filterMap_cons, hhead]
      simp only [Option.map_some']
      have htail : t.filterMap (fun s =>
          ((Workbook.mk ((a :: t).set 0 s2)).getWorksheet s.name).map
            (fun sx => compareSheets s sx))
          = t.map (fun s => compareSheets s s) := by
        rw [List.filterMap_eq_map_iff_forall_eq_some.mpr ?_]
        intro s hs
        rw [hrest s hs]
        rfl
      rw [htail]
      rw [List.map_cons, List.flatten_cons]
      have hother : (List.map SheetDiff.cellDifferences
          (t.map (fun s => compareSheets s s))).flatten = [] := by
        refine flatten_all_nil _ (fun l hl => ?_)
        simp only [List.map_map, List.mem_map] at hl
        obtain ⟨s, hs, rfl⟩ := hl
        exact compareSheets_self s
      rw [hother, List.append_nil]
    | succ k =>
      have hj' : t.get? k = some s1 := by simpa using hj
      have hs1mem : s1 ∈ t := List.get?_mem hj'
      have hhead : (Workbook.mk ((a :: t).set (k + 1) s2)).getWorksheet
          a.name = some a := by
        simp [Workbook.getWorksheet, List.find?]
      have hrest : ∀ s ∈ t,
          (Workbook.mk ((a :: t).set (k + 1) s2)).getWorksheet s.name
            = (Workbook.mk (t.set k s2)).getWorksheet s.name := by
        intro s hs
        have hne : (a.name == s.name) = false := by
          simp only [beq_eq_false_iff_ne, ne_eq]
          intro he
          exact hnd'.1 (he ▸ List.mem_map_of_mem _ hs)
        simp only [Workbook.getWorksheet, List.set, List.find?]
        rw [hne]
      rw [List.filterMap_cons, hhead]
      simp only [Option.map_some']
      have htail : t.filterMap (fun s =>
          ((Workbook.mk ((a :: t).set (k + 1) s2)).getWorksheet s.name).map
            (fun sx => compareSheets s sx))
          = t.filterMap (fun s =>
          ((Workbook.mk (t.set k s2)).getWorksheet s.name).map
            (fun sx => compareSheets s sx)) := by
        apply List.filterMap_congr
        intro s hs
        rw [hrest s hs]
      rw [htail, List.map_cons, List.flatten_cons, compareSheets_self,
        List.nil_append]
      exact ih k hnd'.2 hj'

lemma Sheet.getCell_row_oob (s : Sheet) (r c : Nat)
    (h : s.rowCount < r) : s.getCell r c = .vnull := by
  have hg : s.grid.get? (r - 1) = none :=
    List.get?_eq_none.mpr (by simp only [Sheet.rowCount] at h; omega)
  simp only [Sheet.getCell]
  rw [hg]
  rfl

lemma foldr_max_le_mem (L : List Nat) (x : Nat) (h : x ∈ L) :
    x ≤ L.foldr max 0 := by
  induction L with
  | nil => cases h
  | cons a t ih =>
    rcases List.mem_cons.mp h with rfl | hm
    · exact le_max_left _ _
    · exact le_trans (ih hm) (le_max_right _ _)

lemma Sheet.length_le_columnCount (s : Sheet) (row : List CellValue)
    (h : row ∈ s.grid) : row.length ≤ s.columnCount :=
  foldr_max_le_mem (s.grid.map List.length) row.length
    (List.mem_map_of_mem _ h)

lemma Sheet.getCell_col_oob (s : Sheet) (r c : Nat)
    (h : s.columnCount < c) : s.getCell r c = .vnull := by
  simp only [Sheet.getCell]
  rcases hg : s.grid.get? (r - 1) with _ | row
  · rfl
  · have hmem : row ∈ s.grid := List.get?_mem hg
    have hlen : row.length ≤ s.columnCount :=
      Sheet.length_le_columnCount s row hmem
    simp only [Option.getD_some]
    rw [List.get?_eq_none.mpr (by omega)]
    rfl

/-- C2: with pairwise-distinct sheet names, (i) comparing a workbook
against itself yields an empty `cellDifferences` list on every sheet,
and (ii) comparing it against a copy whose `j`-th sheet differs in
exactly one cell — inside the compared row range and column range —
yields exactly one difference entry across all sheets, whose `cell`
field is the A1-style address of that cell. -/
theorem compare_self_empty_one_change_one_diff (wb : Workbook)
    (hnd : (wb.sheets.map Sheet.name).Nodup) :
    (∀ d ∈ (compareFiles wb wb).sheets, d.cellDifferences = []) ∧
    (∀ (j r c : Nat) (s1 s2 : Sheet),
      wb.sheets.get? j = some s1 → s2.name = s1.name →
      s2.rowCount = s1.rowCount → s2.columnCount = s1.columnCount →
      1 ≤ r → r ≤ min 100 s1.rowCount → 1 ≤ c → c ≤ s1.columnCount →
      s1.getCell r c ≠ s2.getCell r c →
      (∀ r' c', (r' ≠ r ∨ c' ≠ c) →
        s1.getCell r' c' = s2.getCell r' c') →
      (((compareFiles wb (Workbook.mk (wb.sheets.set j s2))).sheets).map
          SheetDiff.cellDifferences).flatten
        = [CellDiff.mk (getColumnLetter c ++ natPrint r)
            (s1.getCell r c) (s2.getCell r c)]) := by
  constructor
  · intro d hd
    simp only [compareFiles, List.mem_filterMap] at hd
    obtain ⟨s1, hs1, hmap⟩ := hd
    have hfind : wb.getWorksheet s1.name = some s1 :=
      find_name_self wb.sheets s1 hs1 hnd
    rw [hfind] at hmap
    have hd : compareSheets s1 s1 = d := by simpa using hmap
    rw [← hd]
    exact compareSheets_self s1
  · intro j r c s1 s2 hj hname hrc hcc hr1 hr2 hc1 hc2 hdiff hsame
    simp only [compareFiles]
    rw [compare_set_single wb.sheets j s1 s2 hnd hj hname]
    exact compareSheets_single s1 s2 r c hrc hcc hr1 hr2 hc1 hc2
      hdiff hsame

/-- A copy of `sheet3x3` with exactly cell B2 changed. -/
def sheet3x3b : Sheet :=
  { name := "Data",
    grid := [[.vstr "a", .vstr "b", .vstr "c"],
             [.vnum 1, .vnum 99, .vnum 3],
             [.vnum 4, .vnum 5, .vnum 6]] }

/-- The one-sheet workbook used as a concrete comparison input. -/
def wbPair : Workbook := { sheets := [sheet3x3] }

lemma sheets_same_off_b2 : ∀ r' c' : Nat, (r' ≠ 2 ∨ c' ≠ 2) →
    sheet3x3.getCell r' c' = sheet3x3b.getCell r' c' := by
  intro r' c' hne
  have hrc1 : sheet3x3.rowCount = 3 := rfl
  have hrc2 : sheet3x3b.rowCount = 3 := rfl
  have hcc1 : sheet3x3.columnCount = 3 := rfl
  have hcc2 : sheet3x3b.columnCount = 3 := rfl
  by_cases hr4 : 4 ≤ r'
  · rw [Sheet.getCell_row_oob sheet3x3 r' c' (by omega),
      Sheet.getCell_row_oob sheet3x3b r' c' (by omega)]
  · by_cases hc4 : 4 ≤ c'
    · rw [Sheet.getCell_col_oob sheet3x3 r' c' (by omega),
        Sheet.getCell_col_oob sheet3x3b r' c' (by omega)]
    · push_neg at hr4 hc4
      interval_cases r' <;> interval_cases c' <;>
        first
          | rfl
          | (rcases hne with h | h <;> omega)

theorem compare_self_empty_one_change_one_diff_witness :
    (wbPair.sheets.map Sheet.name).Nodup ∧
    (∀ d ∈ (compareFiles wbPair wbPair).sheets, d.cellDifferences = []) ∧
    (((compareFiles wbPair
        (Workbook.mk (wbPair.sheets.set 0 sheet3x3b))).sheets).map
        SheetDiff.cellDifferences).flatten
      = [CellDiff.mk (getColumnLetter 2 ++ natPrint 2)
          (sheet3x3.getCell 2 2) (sheet3x3b.getCell 2 2)] :=
  ⟨by decide,
   (compare_self_empty_one_change_one_diff wbPair (by decide)).1,
   (compare_self_empty_one_change_one_diff wbPair (by decide)).2
     0 2 2 sheet3x3 sheet3x3b rfl rfl rfl rfl (by decide) (by decide)
     (by decide) (by decide) (by decide) sheets_same_off_b2⟩

/-- C9: every difference entry the `compare` action reports lies in a
row between 1 and `min(100, max(rowCount₁, rowCount₂))` — in particular
never beyond row 100 — and in a column between 1 and the larger
`columnCount`, and its `cell` field is the A1-style address formed from
that row and column. -/
theorem compare_reported_rows_capped (wb1 wb2 : Workbook) :
    ∀ d ∈ (compareFiles wb1 wb2).sheets, ∀ e ∈ d.cellDifferences,
      ∃ row col, 1 ≤ row ∧ row ≤ 100 ∧
        row ≤ min 100 (max d.rowCount1 d.rowCount2) ∧
        1 ≤ col ∧ col ≤ max d.columnCount1 d.columnCount2 ∧
        e.cell = getColumnLetter col ++ natPrint row := by
  intro d hd e he
  simp only [compareFiles, List.mem_filterMap] at hd
  obtain ⟨s1, hs1, hmap⟩ := hd
  obtain ⟨s2, hw, rfl⟩ := Option.map_eq_some'.mp hmap
  simp only [compareSheets, List.mem_flatten, List.mem_map] at he
  obtain ⟨inner, ⟨row, hrow, rfl⟩, hein⟩ := he
  rw [List.mem_filterMap] at hein
  obtain ⟨col, hcol, hsome⟩ := hein
  rw [List.mem_range'_1] at hrow hcol
  by_cases hne : s1.getCell row col ≠ s2.getCell row col
  · rw [if_pos hne] at hsome
    have he2 := Option.some.inj hsome
    refine ⟨row, col, hrow.1, by omega, ?_, hcol.1, ?_, ?_⟩
    · simp only [compareSheets]
      omega
    · simp only [compareSheets]
      omega
    · rw [← he2]
  · rw [if_neg hne] at hsome
    exact absurd hsome (by simp)

theorem compare_reported_rows_capped_witness :
    (compareSheets sheet3x3 sheet3x3b)
        ∈ (compareFiles wbPair (Workbook.mk [sheet3x3b])).sheets ∧
    CellDiff.mk (getColumnLetter 2 ++ natPrint 2)
        (sheet3x3.getCell 2 2) (sheet3x3b.getCell 2 2)
      ∈ (compareSheets sheet3x3 sheet3x3b).cellDifferences ∧
    (∃ row col, 1 ≤ row ∧ row ≤ 100 ∧
      row ≤ min 100 (max (compareSheets sheet3x3 sheet3x3b).rowCount1
        (compareSheets sheet3x3 sheet3x3b).rowCount2) ∧
      1 ≤ col ∧
      col ≤ max (compareSheets sheet3x3 sheet3x3b).columnCount1
        (compareSheets sheet3x3 sheet3x3b).columnCount2 ∧
      (CellDiff.mk (getColumnLetter 2 ++ natPrint 2)
        (sheet3x3.getCell 2 2) (sheet3x3b.getCell 2 2)).cell
        = getColumnLetter col ++ natPrint row) :=
  ⟨by decide, by decide,
    compare_reported_rows_capped wbPair (Workbook.mk [sheet3x3b])
      (compareSheets sheet3x3 sheet3x3b) (by decide)
      (CellDiff.mk (getColumnLetter 2 ++ natPrint 2)
        (sheet3x3.getCell 2 2) (sheet3x3b.getCell 2 2)) (by decide)⟩

/-! ## CSV conversion (`csv_to_excel.js` and `excel_to_csv.js`) -/

/-- JavaScript `str.split(sep)` for a one-character separator, over
character lists: splitting the empty string gives `[""]`, a separator
at either end gives an empty field there. -/
def splitList (sep : Char) : List Char → List (List Char)
  | [] => [[]]
  | c :: cs =>
    match splitList sep cs with
    | [] => [[]]
    | h :: t => if c = sep then [] :: h :: t else (c :: h) :: t

/-- `content.split(sep)` on strings. -/
def jsSplit (sep : Char) (s : String) : List String :=
  (splitList sep s.data).map (fun l => ⟨l⟩)

/-- JavaScript `arr.join(sep)` over character lists. -/
def joinList (sep : Char) : List (List Char) → List Char
  | [] => []
  | [x] => x
  | x :: y :: t => x ++ sep :: joinList sep (y :: t)

/-- `arr.join(sep)` on strings. -/
def jsJoin (sep : Char) (ls : List String) : String :=
  ⟨joinList sep (ls.map String.data)⟩

/-- Count how often `n` must be halved to drop below `2 ^ 53`; the
fuel (any bound on the bit length, here 1100, covering every finite
double) makes the recursion structural. -/
def ulpExpGo : Nat → Nat → Nat
  | 0, _ => 0
  | fuel + 1, n => if n < 2 ^ 53 then 0 else 1 + ulpExpGo fuel (n / 2)

/-- The exponent of the unit in the last place of the binary64 value
nearest to `n`: the least `e` with `n < 2 ^ (53 + e)` (so
`2 ^ 52 ≤ n / 2 ^ e < 2 ^ 53` once `n > 2 ^ 53`), computed by
repeated halving. -/
def ulpExp (n : Nat) : Nat := ulpExpGo 1100 n

/-- Rounding a natural number to the nearest IEEE-754 binary64 value
(ties to even), as `parseFloat` does to an integer numeral: integers
up to `2 ^ 53` are exactly representable and are unchanged; above
that, the value is rounded to the nearest representable multiple of
its unit in the last place. (Overflow to `Infinity` beyond `2 ^ 1024`
is outside the modelled fragment; no theorem reaches it.) -/
def roundToDouble (n : Nat) : Nat :=
  if n ≤ 2 ^ 53 then n
  else
    let e := ulpExp n
    let q := n / 2 ^ e
    let r := n % 2 ^ e
    let half := 2 ^ (e - 1)
    if half < r ∨ (r = half ∧ q % 2 = 1) then (q + 1) * 2 ^ e
    else q * 2 ^ e

/-- The numeric coercion guard `!isNaN(cell) && cell !== ''` together
with `parseFloat(cell)` of `csv_to_excel.js`, modelled on the fragment
of unsigned decimal integer numerals: an all-digit non-empty string
parses to its exact value rounded to the nearest binary64 double;
everything else is `none`. (On the cell grammar the round-trip
theorems quantify over — all-digit numerals, and text that cannot be
a JavaScript numeric literal — this agrees with the JavaScript
coercion; fractional, signed, exponent and radix-prefixed numerals
are outside the modelled fragment.) -/
def jsParseNat? (s : String) : Option Nat :=
  if s ≠ "" ∧ s.data.all Char.isDigit = true then
    some (roundToDouble (natParse s))
  else none

/-- The cell value `csv_to_excel.js` stores for one trimmed CSV field:
the parsed number when the numeric guard accepts, else the string. -/
def csvCellValue (s : String) : CellValue :=
  match jsParseNat? s with
  | some n => .vnum (n : ℚ)
  | none => .vstr s

/-- `lines = content.split('\n').filter(line => line.trim())` then
`rows = lines.map(line => line.split(',').map(cell => cell.trim()))`. -/
def parseCSV (content : String) : List (List String) :=
  ((jsSplit '\n' content).filter (fun l => jsTrim l ≠ "")).map
    (fun line => (jsSplit ',' line).map jsTrim)

/-- `csvToExcel` of `csv_to_excel.js`, restricted to the worksheet it
builds: row `i`, column `j` of the sheet receives the parsed value of
CSV field `(i, j)`. (The `--header-row`/`--auto-format` options only
change styling, widths and the filter band, not cell values.) -/
def csvToExcel (content : String) : Sheet :=
  { name := "Sheet1",
    grid := (parseCSV content).map (fun row => row.map csvCellValue) }

/-- CSV escaping in `excel_to_csv.js`: wrap in quotes, doubling inner
quotes, exactly when the text contains a comma, quote or newline. -/
def escapeCSV (s : String) : String :=
  if s.data.any (fun c => decide (c = ',' ∨ c = '"' ∨ c = '\n')) then
    "\"" ++ ⟨(s.data.map (fun c =>
      if c = '"' then ['"', '"'] else [c])).flatten⟩ ++ "\""
  else s

/-- `String(value)` of a number, modelled on integral values of
magnitude at most `2 ^ 53`: for those, ECMAScript's `Number::toString`
prints the exact decimal numeral (the shortest decimal that denotes
the double is the value itself throughout the safe-integer range).
Larger or non-integral doubles print in shortest-form or exponent
notation (e.g. `10 ^ 22` prints as `1e+22`) — floating-point printing
behaviour outside the modelled fragment, represented by an explicit
placeholder that no theorem relies on. -/
def jsNumPrint (q : ℚ) : String :=
  if q.den = 1 ∧ q.num.natAbs ≤ 2 ^ 53 then
    if q.num < 0 then "-" ++ natPrint q.num.natAbs else natPrint q.num.natAbs
  else natPrint q.num.natAbs ++ "/" ++ natPrint q.den

/-- The CSV text `excel_to_csv.js` writes for one cell: empty for a
null cell, else the stringified value, escaped. -/
def cellToCSV (v : CellValue) : String :=
  match v with
  | .vnull => ""
  | .vnum q => escapeCSV (jsNumPrint q)
  | .vstr s => escapeCSV s

/-- `excelToCSV` of `excel_to_csv.js` on one sheet: rows with at least
one non-null cell (`eachRow` without empties), each cell stringified
and escaped (`eachCell` with empties), joined by commas, lines joined
by newlines. -/
def excelToCSV (sheet : Sheet) : String :=
  jsJoin '\n'
    ((sheet.grid.filter (fun row => row.any (fun c => c ≠ .vnull))).map
      (fun row => jsJoin ',' (row.map cellToCSV)))

/-- The CSV text of a grid of fields: rows joined by commas, then
lines by newlines — the shape of the source file the round-trip claim
starts from. -/
def gridToCSV (g : List (List String)) : String :=
  jsJoin '\n' (g.map (fun row => jsJoin ',' row))

/-- The characters that can occur in a JavaScript string numeric
literal (ECMAScript `StringNumericLiteral`): whitespace, sign, decimal
point, decimal digits, exponent markers, radix prefixes `0x`/`0o`/`0b`,
hexadecimal digits, and the letters of `Infinity`. A string containing
any character outside this set cannot be coerced to a number
(`isNaN` is true for it). -/
def numericChar (c : Char) : Bool :=
  c.isDigit ∨ jsWhitespace c ∨
    c ∈ ['+', '-', '.', 'e', 'E', 'x', 'X', 'o', 'O',
         'a', 'b', 'c', 'd', 'f', 'A', 'B', 'C', 'D', 'F',
         'I', 'n', 'i', 't', 'y']

/-- A plain textual or numeric CSV field without embedded delimiters:
non-empty, already trimmed (no leading or trailing whitespace), free
of commas, quotes and newlines, and either a canonical all-digit
numeral below `2 ^ 53` (one that reprints as itself — the "modulo
numeric-string normalization" proviso — and within the range where
binary64 represents integers exactly) or text on which the JavaScript
numeric coercion yields `NaN`: a string with a character that cannot
occur in any numeric literal (this admits `"Q3"`, `"New York"`, …),
or a digit-free string other than the `Infinity` forms. -/
def goodCell (s : String) : Prop :=
  s ≠ "" ∧ jsTrim s = s ∧
  (∀ c ∈ s.data, c ≠ ',' ∧ c ≠ '"' ∧ c ≠ '\n') ∧
  ((s.data.all Char.isDigit = true ∧ natPrint (natParse s) = s ∧
      natParse s < 2 ^ 53) ∨
   ((∃ c ∈ s.data, numericChar c = false) ∨
    ((∀ c ∈ s.data, c.isDigit = false) ∧
     s ≠ "Infinity" ∧ s ≠ "+Infinity" ∧ s ≠ "-Infinity")))

instance (s : String) : Decidable (goodCell s) := by
  unfold goodCell
  infer_instance

lemma splitList_ne_nil (sep : Char) (l : List Char) :
    splitList sep l ≠ [] := by
  induction l with
  | nil => simp [splitList]
  | cons c cs ih =>
    simp only [splitList]
    rcases h : splitList sep cs with _ | ⟨a, t⟩
    · exact absurd h ih
    · by_cases hc : c = sep <;> simp [hc]

lemma splitList_no_sep (sep : Char) (l : List Char)
    (h : ∀ c ∈ l, c ≠ sep) : splitList sep l = [l] := by
  induction l with
  | nil => rfl
  | cons c cs ih =>
    have hcs : splitList sep cs = [cs] :=
      ih (fun x hx => h x (List.mem_cons_of_mem _ hx))
    simp [splitList, hcs, h c (List.mem_cons_self c cs)]

lemma splitList_append_sep (sep : Char) (x rest : List Char)
    (hx : ∀ c ∈ x, c ≠ sep) :
    splitList sep (x ++ sep :: rest) = x :: splitList sep rest := by
  induction x with
  | nil =>
    simp only [List.nil_append, splitList]
    rcases h : splitList sep rest with _ | ⟨a, t⟩
    · exact absurd h (splitList_ne_nil sep rest)
    · simp
  | cons c x' ih =>
    have hih := ih (fun a ha => hx a (List.mem_cons_of_mem _ ha))
    simp only [List.cons_append, splitList, List.append_eq]
    rw [hih]
    simp [hx c (List.mem_cons_self c x')]

lemma splitList_joinList (sep : Char) (ls : List (List Char))
    (hne : ls ≠ []) (hs : ∀ l ∈ ls, ∀ c ∈ l, c ≠ sep) :
    splitList sep (joinList sep ls) = ls := by
  induction ls with
  | nil => exact absurd rfl hne
  | cons x xs ih =>
    rcases xs with _ | ⟨y, t⟩
    · exact splitList_no_sep sep x (hs x (List.mem_cons_self x []))
    · rw [show joinList sep (x :: y :: t) = x ++ sep :: joinList sep (y :: t)
        from rfl]
      rw [splitList_append_sep sep x _ (hs x (List.mem_cons_self x _))]
      rw [ih (by simp)
        (fun l hl => hs l (List.mem_cons_of_mem _ hl))]

lemma mem_joinList (sep : Char) (ls : List (List Char)) (c : Char)
    (h : c ∈ joinList sep ls) : c = sep ∨ ∃ l ∈ ls, c ∈ l := by
  induction ls with
  | nil => cases h
  | cons x xs ih =>
    rcases xs with _ | ⟨y, t⟩
    · exact Or.inr ⟨x, List.mem_cons_self x [], h⟩
    · rw [show joinList sep (x :: y :: t) = x ++ sep :: joinList sep (y :: t)
        from rfl] at h
      rcases List.mem_append.mp h with h1 | h1
      · exact Or.inr ⟨x, List.mem_cons_self x _, h1⟩
      · rcases List.mem_cons.mp h1 with rfl | h2
        · exact Or.inl rfl
        · rcases ih h2 with h3 | ⟨l, hl, hcl⟩
          · exact Or.inl h3
          · exact Or.inr ⟨l, List.mem_cons_of_mem _ hl, hcl⟩

lemma jsSplit_jsJoin (sep : Char) (ls : List String) (hne : ls ≠ [])
    (hs : ∀ l ∈ ls, ∀ c ∈ l.data, c ≠ sep) :
    jsSplit sep (jsJoin sep ls) = ls := by
  have h1 : (jsJoin sep ls).data = joinList sep (ls.map String.data) := rfl
  rw [jsSplit, h1, splitList_joinList sep _ (by simpa using hne) ?hsep]
  case hsep =>
    intro l hl c hc
    obtain ⟨t, ht, rfl⟩ := List.mem_map.mp hl
    exact hs t ht c hc
  rw [List.map_map]
  have hid : ((fun l => (⟨l⟩ : String)) ∘ String.data) = id :=
    funext (fun t => rfl)
  rw [hid, List.map_id]

lemma dropWhile_all_false {p : Char → Bool} (l : List Char)
    (h : ∀ c ∈ l, p c = false) : l.dropWhile p = l := by
  cases l with
  | nil => rfl
  | cons c cs => simp [List.dropWhile, h c (List.mem_cons_self c cs)]

lemma jsTrim_eq_self (s : String)
    (h : ∀ c ∈ s.data, jsWhitespace c = false) : jsTrim s = s := by
  have h1 : s.data.dropWhile jsWhitespace = s.data :=
    dropWhile_all_false s.data h
  have h2 : s.data.reverse.dropWhile jsWhitespace = s.data.reverse :=
    dropWhile_all_false _ (fun c hc => h c (List.mem_reverse.mp hc))
  simp [jsTrim, h1, h2]

lemma data_ne_nil (s : String) (h : s ≠ "") : s.data ≠ [] := by
  intro hd
  exact h (congrArg (fun l => (⟨l⟩ : String)) hd)

lemma mk_ne_empty (l : List Char) (h : l ≠ []) : (⟨l⟩ : String) ≠ "" :=
  fun he => h (congrArg String.data he)

lemma escapeCSV_eq_self (s : String)
    (h : ∀ c ∈ s.data, c ≠ ',' ∧ c ≠ '"' ∧ c ≠ '\n') :
    escapeCSV s = s := by
  rw [escapeCSV, if_neg]
  intro hany
  obtain ⟨c, hc, hdec⟩ := List.any_eq_true.mp hany
  have hp := of_decide_eq_true hdec
  obtain ⟨h1, h2, h3⟩ := h c hc
  rcases hp with hp | hp | hp
  exacts [h1 hp, h2 hp, h3 hp]

lemma roundToDouble_of_le (n : Nat) (h : n ≤ 2 ^ 53) :
    roundToDouble n = n := by
  rw [roundToDouble, if_pos h]

lemma numericChar_of_isDigit (c : Char) (h : c.isDigit = true) :
    numericChar c = true := by
  simp [numericChar, h]

/-- In the safe-integer range the model prints the exact decimal. -/
lemma jsNumPrint_natCast (n : Nat) (hn53 : n ≤ 2 ^ 53) :
    jsNumPrint ((n : ℚ)) = natPrint n := by
  have hd : ((n : ℚ)).den = 1 := Rat.den_natCast n
  have hn : ((n : ℚ)).num = (n : ℤ) := Rat.num_natCast n
  have habs : ((n : ℚ)).num.natAbs = n := by rw [hn]; simp
  rw [jsNumPrint, if_pos ⟨hd, by rw [habs]; exact hn53⟩,
    if_neg (by rw [hn]; omega), habs]

lemma csvCellValue_ne_null (s : String) : csvCellValue s ≠ .vnull := by
  unfold csvCellValue
  cases jsParseNat? s <;> simp

/-- Round-trip of one good cell: stringifying the value the converter
stored reproduces the original field text. -/
lemma cellToCSV_csvCellValue (s : String) (h : goodCell s) :
    cellToCSV (csvCellValue s) = s := by
  obtain ⟨hne, _, hchars, hcase⟩ := h
  have hesc : escapeCSV s = s := escapeCSV_eq_self s hchars
  rcases hcase with ⟨hdig, hcanon, hsafe⟩ | htext
  · have hp : jsParseNat? s = some (roundToDouble (natParse s)) := by
      rw [jsParseNat?, if_pos ⟨hne, hdig⟩]
    simp only [csvCellValue, hp, cellToCSV]
    rw [roundToDouble_of_le _ (le_of_lt hsafe),
      jsNumPrint_natCast _ (le_of_lt hsafe), hcanon]
    exact hesc
  · have hp : jsParseNat? s = none := by
      rw [jsParseNat?, if_neg]
      rintro ⟨_, h2⟩
      rcases htext with ⟨c, hc, hncn⟩ | ⟨hnodig, _, _, _⟩
      · have hd := List.all_eq_true.mp h2 c hc
        rw [numericChar_of_isDigit c hd] at hncn
        cases hncn
      · rcases hd : s.data with _ | ⟨c, cs⟩
        · exact data_ne_nil s hne hd
        · have hc := List.all_eq_true.mp h2 c
            (by rw [hd]; exact List.mem_cons_self c cs)
          have hc2 := hnodig c (by rw [hd]; exact List.mem_cons_self c cs)
          rw [hc2] at hc
          cases hc
    simp only [csvCellValue, hp, cellToCSV]
    exact hesc

lemma dropWhile_all_true {p : Char → Bool} (l : List Char)
    (h : ∀ c ∈ l, p c = true) : l.dropWhile p = [] := by
  induction l with
  | nil => rfl
  | cons c cs ih =>
    rw [List.dropWhile_cons, if_pos (h c (List.mem_cons_self c cs))]
    exact ih (fun x hx => h x (List.mem_cons_of_mem _ hx))

/-- A non-empty trimmed string contains a non-whitespace character. -/
lemma exists_not_ws_of_trim_id (s : String) (ht : jsTrim s = s)
    (hne : s ≠ "") : ∃ c ∈ s.data, jsWhitespace c = false := by
  by_contra hall
  push_neg at hall
  have hws : ∀ c ∈ s.data, jsWhitespace c = true := by
    intro c hc
    rcases hb : jsWhitespace c with _ | _
    · exact absurd hb (hall c hc)
    · rfl
  have h1 : s.data.dropWhile jsWhitespace = [] := dropWhile_all_true _ hws
  have h2 : jsTrim s = "" := by
    simp [jsTrim, h1]
  rw [ht] at h2
  exact hne h2

lemma mem_dropWhile_of_not {p : Char → Bool} (l : List Char) (c : Char)
    (hc : c ∈ l) (hp : p c = false) : c ∈ l.dropWhile p := by
  induction l with
  | nil => cases hc
  | cons a t ih =>
    rw [List.dropWhile_cons]
    rcases List.mem_cons.mp hc with rfl | hm
    · rw [if_neg (by rw [hp]; exact Bool.false_ne_true)]
      exact List.mem_cons_self _ _
    · by_cases ha : p a = true
      · rw [if_pos ha]
        exact ih hm
      · rw [if_neg ha]
        exact List.mem_cons_of_mem _ hm

/-- A string containing a non-whitespace character does not trim to
the empty string. -/
lemma jsTrim_ne_empty_of_mem (s : String) (c : Char) (hc : c ∈ s.data)
    (hp : jsWhitespace c = false) : jsTrim s ≠ "" := by
  apply mk_ne_empty
  apply List.ne_nil_of_mem (a := c)
  apply List.mem_reverse.mpr
  apply mem_dropWhile_of_not _ c _ hp
  apply List.mem_reverse.mpr
  exact mem_dropWhile_of_not _ c hc hp

lemma mem_joinList_of_mem (sep : Char) (ls : List (List Char))
    (l : List Char) (c : Char) (hl : l ∈ ls) (hc : c ∈ l) :
    c ∈ joinList sep ls := by
  induction ls with
  | nil => cases hl
  | cons x xs ih =>
    rcases xs with _ | ⟨y, t⟩
    · rcases List.mem_cons.mp hl with rfl | hm
      · exact hc
      · cases hm
    · rw [show joinList sep (x :: y :: t) = x ++ sep :: joinList sep (y :: t)
        from rfl]
      rcases List.mem_cons.mp hl with rfl | hm
      · exact List.mem_append.mpr (Or.inl hc)
      · exact List.mem_append.mpr
          (Or.inr (List.mem_cons_of_mem _ (ih hm)))

lemma line_chars_ok (g : List (List String))
    (hcells : ∀ row ∈ g, ∀ s ∈ row, goodCell s)
    (row : List String) (hrow : row ∈ g) :
    ∀ c ∈ (jsJoin ',' row).data, c ≠ '\n' := by
  intro c hc
  have hc2 : c ∈ joinList ',' (row.map String.data) := hc
  rcases mem_joinList ',' _ c hc2 with rfl | ⟨ld, hld, hcld⟩
  · decide
  · obtain ⟨cell, hcell, rfl⟩ := List.mem_map.mp hld
    exact ((hcells row hrow cell hcell).2.2.1 c hcld).2.2

lemma jsJoin_row_ne_empty (row : List String) (hne : row ≠ [])
    (hcell : ∀ s ∈ row, s ≠ "") : jsJoin ',' row ≠ "" := by
  rcases row with _ | ⟨cell, rest⟩
  · exact absurd rfl hne
  · rcases rest with _ | ⟨y, t⟩
    · exact mk_ne_empty _ (data_ne_nil cell
        (hcell cell (List.mem_cons_self cell [])))
    · apply mk_ne_empty
      show cell.data ++ ',' :: joinList ',' ((y :: t).map String.data) ≠ []
      simp

/-- Parsing the CSV text of a good grid gives back the grid. -/
lemma parseCSV_gridToCSV (g : List (List String)) (hne : g ≠ [])
    (hrowne : ∀ row ∈ g, row ≠ [])
    (hcells : ∀ row ∈ g, ∀ s ∈ row, goodCell s) :
    parseCSV (gridToCSV g) = g := by
  have hlines : jsSplit '\n' (gridToCSV g)
      = g.map (fun row => jsJoin ',' row) := by
    rw [gridToCSV]
    apply jsSplit_jsJoin
    · simpa using hne
    · intro l hl c hc
      obtain ⟨row, hrow, rfl⟩ := List.mem_map.mp hl
      exact line_chars_ok g hcells row hrow c hc
  rw [parseCSV, hlines]
  have hkeep : (g.map (fun row => jsJoin ',' row)).filter
      (fun l => jsTrim l ≠ "") = g.map (fun row => jsJoin ',' row) := by
    apply List.filter_eq_self.mpr
    intro line hline
    obtain ⟨row, hrow, rfl⟩ := List.mem_map.mp hline
    rcases hr : row with _ | ⟨cell, rest⟩
    · exact absurd hr (hrowne row hrow)
    · subst hr
      have hg := hcells _ hrow cell (List.mem_cons_self cell rest)
      obtain ⟨c, hcd, hcws⟩ := exists_not_ws_of_trim_id cell hg.2.1 hg.1
      have hcl : c ∈ (jsJoin ',' (cell :: rest)).data := by
        show c ∈ joinList ',' ((cell :: rest).map String.data)
        exact mem_joinList_of_mem ',' _ cell.data c
          (List.mem_map_of_mem _ (List.mem_cons_self cell rest)) hcd
      exact decide_eq_true (jsTrim_ne_empty_of_mem _ c hcl hcws)
  rw [hkeep, List.map_map]
  have hrows : ∀ row ∈ g,
      ((fun line => (jsSplit ',' line).map jsTrim) ∘
        (fun row => jsJoin ',' row)) row = row := by
    intro row hrow
    show (jsSplit ',' (jsJoin ',' row)).map jsTrim = row
    rw [jsSplit_jsJoin ',' row (hrowne row hrow)
      (fun cell hcell c hc => ((hcells row hrow cell hcell).2.2.1 c hc).1)]
    have htr : ∀ cell ∈ row, jsTrim cell = cell := fun cell hcell =>
      (hcells row hrow cell hcell).2.1
    calc row.map jsTrim = row.map id := List.map_congr_left htr
    _ = row := List.map_id row
  calc g.map _ = g.map id := List.map_congr_left hrows
  _ = g := List.map_id g

/-- Exporting the sheet the converter built reproduces the CSV text. -/
lemma excelToCSV_csvToExcel_grid (g : List (List String)) (hne : g ≠ [])
    (hrowne : ∀ row ∈ g, row ≠ [])
    (hcells : ∀ row ∈ g, ∀ s ∈ row, goodCell s) :
    excelToCSV (csvToExcel (gridToCSV g)) = gridToCSV g := by
  have hparse : parseCSV (gridToCSV g) = g :=
    parseCSV_gridToCSV g hne hrowne hcells
  show jsJoin '\n'
      ((((parseCSV (gridToCSV g)).map
          (fun row => row.map csvCellValue)).filter
        (fun row => row.any (fun c => c ≠ .vnull))).map
        (fun row => jsJoin ',' (row.map cellToCSV)))
    = gridToCSV g
  rw [hparse]
  have hfil : (g.map (fun row => row.map csvCellValue)).filter
      (fun row => row.any (fun c => c ≠ .vnull))
      = g.map (fun row => row.map csvCellValue) := by
    apply List.filter_eq_self.mpr
    intro mrow hm
    obtain ⟨row, hrow, rfl⟩ := List.mem_map.mp hm
    rcases hr : row with _ | ⟨cell, rest⟩
    · exact absurd hr (hrowne row hrow)
    · apply List.any_eq_true.mpr
      refine ⟨csvCellValue cell, by subst hr; simp, ?_⟩
      exact decide_eq_true (csvCellValue_ne_null cell)
  rw [hfil, List.map_map, gridToCSV]
  congr 1
  have hrows : ∀ row ∈ g,
      ((fun row => jsJoin ',' (row.map cellToCSV)) ∘
        (fun row => row.map csvCellValue)) row
      = jsJoin ',' row := by
    intro row hrow
    show jsJoin ',' ((row.map csvCellValue).map cellToCSV) = jsJoin ',' row
    rw [List.map_map]
    congr 1
    have hcell : ∀ s ∈ row, (cellToCSV ∘ csvCellValue) s = s :=
      fun s hs => cellToCSV_csvCellValue s (hcells row hrow s hs)
    calc row.map _ = row.map id := List.map_congr_left hcell
    _ = row := List.map_id row
  exact List.map_congr_left hrows

/-- A 3×3 grid containing the numeral `2 ^ 53 + 1`, which is not
exactly representable as a binary64 double. -/
def gridUnsafe : List (List String) :=
  [["name", "qty", "price"], ["gadget", "9007199254740993", "12"],
   ["pear", "7", "30"]]

/-- A concrete 3×3 grid with a header row, textual cells (including an
embedded space and a mixed alphanumeric) and numeric cells. -/
def grid3 : List (List String) :=
  [["name", "qty", "price"], ["New York", "5", "12"], ["Q3", "7", "30"]]

